import Mathlib

/-!
Verification of the core components of the Avatar repository against its
natural-language specification.

The development shallowly embeds the relevant TypeScript source:

* `src/src/utils/RealtimeAudio.ts` — wire codec (`encodeAudioForAPI`,
  `decodeAudioFromAPI`), the `RealtimeChat` session manager (outbound event
  ordering, reconnect/backoff loop).
* `src/unnamed/part_005` — the `DIDClient` avatar-speech dispatcher
  (speak queue, quota handling, duration estimate, disconnect).
* `src/unnamed/part_003` — the network-quality classifier
  (`determineQuality`).
* `src/src/components/AvatarVideoCall.tsx` — the `handleVoiceInput` handler
  of the conversation orchestrator.

JS numbers are modelled as `ℚ` (all inputs of interest are finite), strings
as Lean `String`/`List Char`, and byte buffers as `List ℕ` with every entry
below 256.  Stateful classes become explicit state records with a
deterministic `step` function over the event/callback arrivals that drive
them; JS is single-threaded, so each source-level synchronous segment is one
step.
-/

namespace Avatar

/-! ## Wire codec (`src/src/utils/RealtimeAudio.ts`, lines 100-127)

`encodeAudioForAPI` clamps each Float32 sample to [-1,1], scales negatives by
0x8000 and non-negatives by 0x7FFF, truncates toward zero into an
`Int16Array`, reinterprets the buffer as little-endian bytes, builds the
binary string and base64-encodes it with `btoa`.  `decodeAudioFromAPI`
base64-decodes with `atob` and returns the byte values. -/

/-- Truncation toward zero, as JS `Int16Array` assignment performs on the
(in-range) scaled sample value. -/
def jsTrunc (q : ℚ) : ℤ :=
  if q < 0 then -(Int.floor (-q)) else Int.floor q

/-- `Math.max(-1, Math.min(1, x))` from the encoder loop. -/
def clampSample (s : ℚ) : ℚ := max (-1) (min 1 s)

/-- The signed 16-bit value stored for one sample:
`s < 0 ? s * 0x8000 : s * 0x7FFF` after clamping, truncated toward zero. -/
def toInt16 (s : ℚ) : ℤ :=
  let c := clampSample s
  jsTrunc (if c < 0 then c * 32768 else c * 32767)

/-- Little-endian byte pair of a signed 16-bit value, as produced by viewing
the `Int16Array` buffer through a `Uint8Array` (in twos-complement form). -/
def int16Bytes (v : ℤ) : List ℕ :=
  let u := (v % 65536).toNat
  [u % 256, u / 256]

/-- The raw byte sequence of the `Uint8Array` view built by the encoder. -/
def bytesOf : List ℚ → List ℕ
  | [] => []
  | s :: xs => int16Bytes (toInt16 s) ++ bytesOf xs

/-- The base64 alphabet used by `btoa`/`atob`. -/
def b64Alphabet : List Char :=
  "ABCDEFGHIJKLMNOPQRSTUVWXYZabcdefghijklmnopqrstuvwxyz0123456789+/".toList

/-- Character for a 6-bit group. -/
def b64Char (n : ℕ) : Char := b64Alphabet.getD n 'A'

/-- Index of a base64 character in the alphabet (inverse of `b64Char`). -/
def b64Index (c : Char) : ℕ := b64Alphabet.findIdx (fun x => x == c)

/-- JS `btoa` on a binary string whose char codes are the given bytes:
standard base64 with `=` padding, processing three bytes at a time. -/
def btoa : List ℕ → List Char
  | [] => []
  | [b1] => [b64Char (b1 / 4), b64Char (b1 % 4 * 16), '=', '=']
  | [b1, b2] =>
      [b64Char (b1 / 4), b64Char (b1 % 4 * 16 + b2 / 16),
       b64Char (b2 % 16 * 4), '=']
  | b1 :: b2 :: b3 :: rest =>
      b64Char (b1 / 4) :: b64Char (b1 % 4 * 16 + b2 / 16) ::
      b64Char (b2 % 16 * 4 + b3 / 64) :: b64Char (b3 % 64) ::
      btoa rest

/-- Regroup a run of 6-bit values into 8-bit bytes (the bit-level content of
the `atob` output for well-formed input). -/
def regroup : List ℕ → List ℕ
  | a :: b :: c :: d :: rest =>
      (a * 4 + b / 16) :: (b % 16 * 16 + c / 4) :: (c % 4 * 64 + d) ::
      regroup rest
  | [a, b] => [a * 4 + b / 16]
  | [a, b, c] => [a * 4 + b / 16, b % 16 * 16 + c / 4]
  | _ => []

/-- JS `atob` on well-formed base64: drop padding, map characters to their
6-bit values, regroup into bytes. -/
def atob (s : List Char) : List ℕ :=
  regroup ((s.filter (fun c => c != '=')).map b64Index)

/-- `encodeAudioForAPI` (the full pipeline; the result is the base64 text sent
as the `audio` field of `input_audio_buffer.append`). -/
def encodeAudioForAPI (xs : List ℚ) : List Char := btoa (bytesOf xs)

/-- `decodeAudioFromAPI`: base64-decode and read the char codes back as bytes
(`charCodeAt` on a binary string is the identity on byte values). -/
def decodeAudioFromAPI (s : List Char) : List ℕ := atob s

/-- Read the byte pair at sample index `i` back as a little-endian signed
16-bit integer (twos complement). -/
def sint16 (n : ℕ) : ℤ := if n < 32768 then (n : ℤ) else (n : ℤ) - 65536

/-- The signed 16-bit value encoded at sample slot `i` of a byte sequence. -/
def int16At (bytes : List ℕ) (i : ℕ) : ℤ :=
  sint16 (bytes.getD (2 * i) 0 + 256 * bytes.getD (2 * i + 1) 0)

/-- The reconstructed sample: the little-endian signed 16-bit value rescaled
to [-1,1] by the conventional PCM16 factor 1/32768. -/
def decodedSample (bytes : List ℕ) (i : ℕ) : ℚ := (int16At bytes i : ℚ) / 32768

/-! ### Base64 round trip -/

theorem b64Index_b64Char : ∀ n, n < 64 → b64Index (b64Char n) = n := by decide

theorem b64Char_ne_pad : ∀ n, n < 64 → (b64Char n != '=') = true := by decide

theorem atob_btoa : ∀ bs : List ℕ, (∀ b ∈ bs, b < 256) → atob (btoa bs) = bs
  | [], _ => rfl
  | [b1], h => by
      have hb1 : b1 < 256 := h b1 (by simp)
      have h1 : b1 / 4 < 64 := by omega
      have h2 : b1 % 4 * 16 < 64 := by omega
      simp only [btoa, atob, List.filter, b64Char_ne_pad _ h1,
        b64Char_ne_pad _ h2]
      norm_num [List.map, regroup, b64Index_b64Char _ h1,
        b64Index_b64Char _ h2]
      omega
  | [b1, b2], h => by
      have hb1 : b1 < 256 := h b1 (by simp)
      have hb2 : b2 < 256 := h b2 (by simp)
      have h1 : b1 / 4 < 64 := by omega
      have h2 : b1 % 4 * 16 + b2 / 16 < 64 := by omega
      have h3 : b2 % 16 * 4 < 64 := by omega
      simp only [btoa, atob, List.filter, b64Char_ne_pad _ h1,
        b64Char_ne_pad _ h2, b64Char_ne_pad _ h3]
      norm_num [List.map, regroup, b64Index_b64Char _ h1,
        b64Index_b64Char _ h2, b64Index_b64Char _ h3]
      omega
  | b1 :: b2 :: b3 :: rest, h => by
      have hb1 : b1 < 256 := h b1 (by simp)
      have hb2 : b2 < 256 := h b2 (by simp)
      have hb3 : b3 < 256 := h b3 (by simp)
      have ih := atob_btoa rest (fun b hb => h b (by simp [hb]))
      have h1 : b1 / 4 < 64 := by omega
      have h2 : b1 % 4 * 16 + b2 / 16 < 64 := by omega
      have h3 : b2 % 16 * 4 + b3 / 64 < 64 := by omega
      have h4 : b3 % 64 < 64 := by omega
      simp only [btoa, atob, List.filter, b64Char_ne_pad _ h1,
        b64Char_ne_pad _ h2, b64Char_ne_pad _ h3, b64Char_ne_pad _ h4,
        List.map, b64Index_b64Char _ h1, b64Index_b64Char _ h2,
        b64Index_b64Char _ h3, b64Index_b64Char _ h4, regroup] at ih ⊢
      simp only [List.cons.injEq]
      exact ⟨by omega, by omega, by omega, ih⟩

/-! ### Byte-level facts about the encoder output -/

theorem int16Bytes_lt (v : ℤ) : ∀ b ∈ int16Bytes v, b < 256 := by
  have h0 : (0 : ℤ) ≤ v % 65536 := Int.emod_nonneg v (by norm_num)
  have h1 : v % 65536 < 65536 := Int.emod_lt_of_pos v (by norm_num)
  intro b hb
  simp only [int16Bytes, List.mem_cons, List.mem_singleton,
    List.not_mem_nil, or_false] at hb
  rcases hb with h | h <;> omega

theorem bytesOf_lt (xs : List ℚ) : ∀ b ∈ bytesOf xs, b < 256 := by
  induction xs with
  | nil => simp [bytesOf]
  | cons s xs ih =>
      intro b hb
      simp only [bytesOf, List.mem_append] at hb
      rcases hb with h | h
      · exact int16Bytes_lt _ b h
      · exact ih b h

theorem bytesOf_length (xs : List ℚ) : (bytesOf xs).length = 2 * xs.length := by
  induction xs with
  | nil => rfl
  | cons s xs ih => simp [bytesOf, int16Bytes, ih]; omega

/-- The full decode-of-encode collapses to the raw byte sequence. -/
theorem decode_encode (xs : List ℚ) :
    decodeAudioFromAPI (encodeAudioForAPI xs) = bytesOf xs :=
  atob_btoa (bytesOf xs) (bytesOf_lt xs)

theorem bytesOf_getD (xs : List ℚ) : ∀ i, i < xs.length →
    (bytesOf xs).getD (2 * i) 0 = ((toInt16 (xs.getD i 0)) % 65536).toNat % 256 ∧
    (bytesOf xs).getD (2 * i + 1) 0 = ((toInt16 (xs.getD i 0)) % 65536).toNat / 256 := by
  induction xs with
  | nil => intro i hi; simp at hi
  | cons s xs ih =>
      intro i hi
      cases i with
      | zero => simp [bytesOf, int16Bytes]
      | succ j =>
          have hj : j < xs.length := by simpa using Nat.lt_of_succ_lt_succ hi
          have h2 : 2 * (j + 1) = (2 * j) + 2 := by omega
          have h3 : 2 * (j + 1) + 1 = (2 * j + 1) + 2 := by omega
          simpa [bytesOf, int16Bytes, h2, h3] using ih j hj

/-- Reading the twos-complement byte pair back recovers the stored value. -/
theorem sint16_bytes (v : ℤ) (hlo : -32768 ≤ v) (hhi : v ≤ 32767) :
    sint16 ((v % 65536).toNat % 256 + 256 * ((v % 65536).toNat / 256)) = v := by
  have h0 : (0 : ℤ) ≤ v % 65536 := Int.emod_nonneg v (by norm_num)
  have h1 : v % 65536 < 65536 := Int.emod_lt_of_pos v (by norm_num)
  have hv : v % 65536 = if 0 ≤ v then v else v + 65536 := by
    split <;> omega
  simp only [sint16]
  split <;> omega

/-- The stored sample value always lies in the signed 16-bit range, for every
rational input (the clamp runs before the integer conversion). -/
theorem toInt16_range (s : ℚ) : -32768 ≤ toInt16 s ∧ toInt16 s ≤ 32767 := by
  have hc1 : (-1 : ℚ) ≤ clampSample s := le_max_left _ _
  have hc2 : clampSample s ≤ 1 :=
    max_le (by norm_num) (min_le_left _ _)
  set c := clampSample s with hc
  simp only [toInt16, jsTrunc, ← hc]
  by_cases hneg : c < 0
  · have hq : c * 32768 < 0 := by nlinarith
    simp only [if_pos hneg, if_pos hq]
    have hb : -(c * 32768) ≤ ((32768 : ℤ) : ℚ) := by push_cast; nlinarith
    have hfl : Int.floor (-(c * 32768)) ≤ 32768 := by
      have h := Int.floor_mono hb
      rwa [Int.floor_intCast] at h
    have hfnn : 0 ≤ Int.floor (-(c * 32768)) := Int.floor_nonneg.mpr (by nlinarith)
    omega
  · have hc0 : 0 ≤ c := not_lt.mp hneg
    have hq : ¬ c * 32767 < 0 := by nlinarith
    simp only [if_neg hneg, if_neg hq]
    have hb : c * 32767 ≤ ((32767 : ℤ) : ℚ) := by push_cast; nlinarith
    have hfl : Int.floor (c * 32767) ≤ 32767 := by
      have h := Int.floor_mono hb
      rwa [Int.floor_intCast] at h
    have hfnn : 0 ≤ Int.floor (c * 32767) := Int.floor_nonneg.mpr (by nlinarith)
    omega

/-- Quantization error of one encode/decode round trip: at most two 16-bit
steps (the encoder scales non-negative samples by 32767 while the decode
rescale divides by 32768, so the error on positive samples can reach almost
2/32768; on negative samples it stays below 1/32768). -/
theorem toInt16_error (s : ℚ) (h1 : -1 ≤ s) (h2 : s ≤ 1) :
    |s - (toInt16 s : ℚ) / 32768| ≤ 2 / 32768 := by
  have hcl : clampSample s = s := by
    simp only [clampSample]
    rw [min_eq_right h2, max_eq_right h1]
  simp only [toInt16, jsTrunc, hcl]
  by_cases hneg : s < 0
  · have hq : s * 32768 < 0 := by nlinarith
    simp only [if_pos hneg, if_pos hq]
    have hfl : (Int.floor (-(s * 32768)) : ℚ) ≤ -(s * 32768) := Int.floor_le _
    have hfg : -(s * 32768) < Int.floor (-(s * 32768)) + 1 :=
      Int.lt_floor_add_one _
    rw [abs_le]
    push_cast
    constructor <;> nlinarith
  · have hs0 : 0 ≤ s := not_lt.mp hneg
    have hq : ¬ s * 32767 < 0 := by nlinarith
    simp only [if_neg hneg, if_neg hq]
    have hfl : (Int.floor (s * 32767) : ℚ) ≤ s * 32767 := Int.floor_le _
    have hfg : s * 32767 < Int.floor (s * 32767) + 1 := Int.lt_floor_add_one _
    rw [abs_le]
    constructor <;> nlinarith

/-- The sample reconstructed from the decoded bytes is the stored 16-bit value
rescaled by 1/32768. -/
theorem decodedSample_eq (xs : List ℚ) (i : ℕ) (hi : i < xs.length) :
    decodedSample (decodeAudioFromAPI (encodeAudioForAPI xs)) i =
      (toInt16 (xs.getD i 0) : ℚ) / 32768 := by
  obtain ⟨hlo, hhiB⟩ := bytesOf_getD xs i hi
  obtain ⟨hr1, hr2⟩ := toInt16_range (xs.getD i 0)
  simp only [decodedSample, int16At, decode_encode, hlo, hhiB,
    sint16_bytes _ hr1 hr2]

/-- C4 (counterexample): the claim bounds the round-trip error by one 16-bit
quantization step (1/32768).  At the float32-representable sample
16777215/16777216 (the largest float32 below 1) the encoder stores
`trunc(32767 * s) = 32766`, and the little-endian signed-16-bit read-back
rescaled by 1/32768 is 32766/32768, giving an error of 1023/16777216, which
exceeds 1/32768 = 512/16777216.  So the claim as stated is false. -/
theorem c4_counterexample :
    1 / 32768 <
      |([(16777215 : ℚ) / 16777216].getD 0 0) -
        decodedSample
          (decodeAudioFromAPI (encodeAudioForAPI [(16777215 : ℚ) / 16777216]))
          0| := by
  have h1 : toInt16 ((16777215 : ℚ) / 16777216) = 32766 := by
    have hcl : clampSample ((16777215 : ℚ) / 16777216) =
        (16777215 : ℚ) / 16777216 := by
      simp only [clampSample]
      rw [min_eq_right (by norm_num), max_eq_right (by norm_num)]
    simp only [toInt16, jsTrunc, hcl]
    rw [if_neg (by norm_num), if_neg (by norm_num)]
    rw [Int.floor_eq_iff]
    norm_num
  rw [decodedSample_eq _ 0 (by norm_num)]
  have hg : ([(16777215 : ℚ) / 16777216].getD 0 0) = (16777215 : ℚ) / 16777216 :=
    rfl
  rw [hg, h1]
  rw [abs_of_nonneg (by push_cast; norm_num)]
  push_cast
  norm_num

/-- C4 (amended): for every sample sequence with values in [-1,1], decoding
the transport string produced by the outbound encoder and reading the bytes
as little-endian signed 16-bit integers rescaled by 1/32768 reconstructs each
input sample within TWO 16-bit quantization steps (at most 2/32768 = 1/16384);
the one-step bound of the original claim holds for non-positive samples but
fails for positive ones (see `c4_counterexample`). -/
theorem c4_codec_roundtrip_two_steps (xs : List ℚ)
    (hb : ∀ s ∈ xs, -1 ≤ s ∧ s ≤ 1) (i : ℕ) (hi : i < xs.length) :
    |xs.getD i 0 -
      decodedSample (decodeAudioFromAPI (encodeAudioForAPI xs)) i| ≤
      2 / 32768 := by
  rw [decodedSample_eq xs i hi]
  have hm : xs.getD i 0 ∈ xs := by
    rw [List.getD_eq_getElem xs 0 hi]
    exact List.getElem_mem hi
  exact toInt16_error _ (hb _ hm).1 (hb _ hm).2

/-- Witness for `c4_codec_roundtrip_two_steps` at the concrete input `[1]`:
the sample 1 is stored as 32767 and reconstructed as 32767/32768, an error of
exactly one quantization step, within the amended two-step bound. -/
theorem c4_witness :
    |([(1 : ℚ)].getD 0 0) -
      decodedSample (decodeAudioFromAPI (encodeAudioForAPI [(1 : ℚ)])) 0| ≤
      2 / 32768 :=
  c4_codec_roundtrip_two_steps [1]
    (by intro s hs; simp only [List.mem_singleton] at hs; subst hs; norm_num)
    0 (by norm_num)

/-- C10: `encodeAudioForAPI` is total and deterministic on every finite sample
sequence (it is a pure function of the sample list): the clamp keeps every
stored 16-bit value in [-32768, 32767] even for out-of-range inputs, and the
base64 output always decodes to exactly the 2*N little-endian bytes of the N
stored samples. -/
theorem c10_encode_total (xs : List ℚ) :
    decodeAudioFromAPI (encodeAudioForAPI xs) = bytesOf xs ∧
    (decodeAudioFromAPI (encodeAudioForAPI xs)).length = 2 * xs.length ∧
    ∀ s : ℚ, -32768 ≤ toInt16 s ∧ toInt16 s ≤ 32767 := by
  refine ⟨decode_encode xs, ?_, toInt16_range⟩
  rw [decode_encode xs, bytesOf_length]

/-! ## Network quality classifier (`src/unnamed/part_003`, `determineQuality`)

The hook reads `navigator.onLine` inside the function; here it is an explicit
parameter `isOnline`. -/

inductive NetworkQuality
  | excellent
  | good
  | fair
  | poor
  | offline
deriving DecidableEq

/-- `determineQuality` translated clause by clause from the source. -/
def determineQuality (rtt downlink : ℚ) (effectiveType : String)
    (isOnline : Bool) : NetworkQuality :=
  if !isOnline then .offline
  else if rtt < 100 ∧ downlink > 5 then .excellent
  else if rtt < 300 ∧ downlink > 2 then .good
  else if rtt < 600 ∧ downlink > 1/2 then .fair
  else if effectiveType = "4g" ∧ rtt < 200 then .good
  else if effectiveType = "3g" then .fair
  else if effectiveType = "2g" ∨ effectiveType = "slow-2g" then .poor
  else .poor

/-- First-matching-rule combinator used by the spec-side classifier. -/
def firstMatch : List (Bool × NetworkQuality) → NetworkQuality
  | [] => .poor
  | (true, q) :: _ => q
  | (false, _) :: rs => firstMatch rs

/-- Modelled from the words of the spec (§4.4): offline iff the network is down,
otherwise the ordered thresholds, then the connection-type hints, defaulting
to poor.  Used as the comparison point for the refinement part of C5. -/
def classifySpec (rtt downlink : ℚ) (effectiveType : String)
    (isOnline : Bool) : NetworkQuality :=
  if isOnline = false then .offline
  else
    firstMatch
      [(decide (rtt < 100) && decide (downlink > 5), .excellent),
       (decide (rtt < 300) && decide (downlink > 2), .good),
       (decide (rtt < 600) && decide (downlink > 1/2), .fair),
       (decide (effectiveType = "4g") && decide (rtt < 200), .good),
       (decide (effectiveType = "3g"), .fair),
       (decide (effectiveType = "2g") || decide (effectiveType = "slow-2g"), .poor)]

/-- C5: the network-tier classifier is a pure function of
(rtt, downlink, effectiveType, isOnline); it coincides with the specified
ordered-threshold cascade, returns `offline` exactly when the network is
reported down, and classifies (50, 10, "4g") as `excellent` when online and
`offline` when not. -/
theorem c5_classifier (rtt downlink : ℚ) (effectiveType : String)
    (isOnline : Bool) :
    determineQuality rtt downlink effectiveType isOnline =
        classifySpec rtt downlink effectiveType isOnline ∧
      (determineQuality rtt downlink effectiveType isOnline =
          NetworkQuality.offline ↔ isOnline = false) ∧
      determineQuality 50 10 "4g" true = NetworkQuality.excellent ∧
      determineQuality 50 10 "4g" false = NetworkQuality.offline := by
  refine ⟨?_, ?_, by norm_num [determineQuality], by norm_num [determineQuality]⟩
  · cases isOnline with
    | false => simp [determineQuality, classifySpec]
    | true =>
        simp only [determineQuality, classifySpec, ← Bool.decide_and,
          ← Bool.decide_or]
        rw [if_neg (show ¬((!true) = true) by simp),
          if_neg (show ¬(true = false) by simp)]
        by_cases h1 : rtt < 100 ∧ downlink > 5
        · rw [if_pos h1, decide_eq_true h1]; rfl
        · by_cases h2 : rtt < 300 ∧ downlink > 2
          · rw [if_neg h1, if_pos h2, decide_eq_false h1, decide_eq_true h2]
            rfl
          · by_cases h3 : rtt < 600 ∧ downlink > 1/2
            · rw [if_neg h1, if_neg h2, if_pos h3, decide_eq_false h1,
                decide_eq_false h2, decide_eq_true h3]
              rfl
            · by_cases h4 : effectiveType = "4g" ∧ rtt < 200
              · rw [if_neg h1, if_neg h2, if_neg h3, if_pos h4,
                  decide_eq_false h1, decide_eq_false h2, decide_eq_false h3,
                  decide_eq_true h4]
                rfl
              · by_cases h5 : effectiveType = "3g"
                · rw [if_neg h1, if_neg h2, if_neg h3, if_neg h4, if_pos h5,
                    decide_eq_false h1, decide_eq_false h2,
                    decide_eq_false h3, decide_eq_false h4,
                    decide_eq_true h5]
                  rfl
                · by_cases h6 : effectiveType = "2g" ∨ effectiveType = "slow-2g"
                  · rw [if_neg h1, if_neg h2, if_neg h3, if_neg h4, if_neg h5,
                      if_pos h6, decide_eq_false h1, decide_eq_false h2,
                      decide_eq_false h3, decide_eq_false h4,
                      decide_eq_false h5, decide_eq_true h6]
                    rfl
                  · rw [if_neg h1, if_neg h2, if_neg h3, if_neg h4, if_neg h5,
                      if_neg h6, decide_eq_false h1, decide_eq_false h2,
                      decide_eq_false h3, decide_eq_false h4,
                      decide_eq_false h5, decide_eq_false h6]
                    rfl
  · cases isOnline with
    | false => simp [determineQuality]
    | true =>
        simp only [determineQuality, Bool.not_true, Bool.false_eq_true,
          if_false]
        constructor
        · intro h
          split_ifs at h
        · intro h
          simp at h

/-! ## Avatar speech dispatcher (`src/unnamed/part_005`, class `DIDClient`)

The dispatcher is driven by the single-threaded JS event loop.  Each
synchronous segment of `speak`/`processSpeak` between two `await` points is
one transition; the resumption points (the backend `speak` request resolving,
the estimated-duration timer, the 500 ms inter-utterance delay) arrive as
events.  `phase` is the program counter of the one `processSpeak` activation
in progress; in every scenario quantified over below at most one activation
exists, matching the await chain of the code. -/

/-- Whether `pat` occurs at the start of `l`. -/
def beginsWith : List Char → List Char → Bool
  | [], _ => true
  | _ :: _, [] => false
  | a :: as, b :: bs => a == b && beginsWith as bs

/-- JS `String.includes`: `pat` occurs contiguously somewhere in `l`. -/
def containsSeq (pat : List Char) : List Char → Bool
  | [] => pat.isEmpty
  | c :: cs => beginsWith pat (c :: cs) || containsSeq pat cs

/-- Quota/credit detection on a backend error message:
`msg.includes("402") || msg.toLowerCase().includes("insufficient") ||
msg.toLowerCase().includes("credits")`. -/
def isQuotaMsg (m : String) : Bool :=
  containsSeq "402".toList m.toList ||
  containsSeq "insufficient".toList (m.toList.map Char.toLower) ||
  containsSeq "credits".toList (m.toList.map Char.toLower)

/-- Word counter: `text.trim().split(/\s+/).filter(Boolean).length`, i.e. the
number of maximal whitespace-free runs. -/
def countWordsAux : List Char → Bool → ℕ
  | [], _ => 0
  | c :: cs, inWord =>
      if c.isWhitespace then countWordsAux cs false
      else (if inWord then 0 else 1) + countWordsAux cs true

def jsWordCount (t : String) : ℕ := countWordsAux t.toList false

/-- Wait performed by `processSpeak` before signalling speaking-end:
`Math.min(20000, Math.max(1500, (words / 170) * 60 * 1000 + 800))`. -/
def durationMs (words : ℕ) : ℚ :=
  min 20000 (max 1500 ((words : ℚ) / 170 * 60 * 1000 + 800))

/-- Program counter of the single in-progress `processSpeak` activation. -/
inductive DPhase
  | idle
  | sending (t : String)
  | waiting
  | gap (next : String)
deriving DecidableEq

/-- Events that resume the dispatcher: a `speak(t)` call, the backend request
resolving (ok or with an error message), the duration timer, and the 500 ms
inter-utterance delay elapsing. -/
inductive DEvent
  | speakCall (t : String)
  | invokeOk
  | invokeErr (m : String)
  | timerDone
  | gapDone
deriving DecidableEq

structure DState where
  /-- `streamId`/`sessionId` are set (the stream was created). -/
  connected : Bool
  /-- `peerConnection` is non-null. -/
  peerOpen : Bool
  /-- `isSpeaking` field. -/
  isSpeaking : Bool
  /-- `isProcessingQueue` field. -/
  isProcessingQueue : Bool
  /-- `speechDisabledReason !== null`. -/
  disabled : Bool
  /-- `speakQueue`. -/
  queue : List String
  /-- Trace of texts handed to the backend `speak` action, in request order. -/
  sent : List String
  /-- Trace of the duration waits performed before signalling speaking-end. -/
  waits : List ℚ
  /-- Number of `close-stream` requests issued. -/
  closeReqs : ℕ
deriving DecidableEq

/-- The tail of `processSpeak` after the utterance (error branch or after the
duration wait): clear both flags, then if the queue is non-empty and speech is
not disabled, shift the next text and schedule the 500 ms delay; otherwise
become idle. -/
def afterUtterance (s : DState) : DState × DPhase :=
  let s1 := { s with isSpeaking := false, isProcessingQueue := false }
  match s1.queue, s1.disabled with
  | t :: rest, false => ({ s1 with queue := rest }, DPhase.gap t)
  | _, _ => (s1, DPhase.idle)

/-- One dispatcher transition.  The phase travels alongside the state. -/
def dStep : DState × DPhase → DEvent → DState × DPhase
  | (s, ph), .speakCall t =>
      if !s.connected then (s, ph)
      else if s.disabled then (s, ph)
      else if s.isSpeaking || s.isProcessingQueue then
        ({ s with queue := s.queue ++ [t] }, ph)
      else
        ({ s with
            isSpeaking := true, isProcessingQueue := true,
            sent := s.sent ++ [t] }, DPhase.sending t)
  | (s, ph), .invokeOk =>
      match ph with
      | .sending t =>
          ({ s with waits := s.waits ++ [durationMs (jsWordCount t)] },
           DPhase.waiting)
      | _ => (s, ph)
  | (s, ph), .invokeErr m =>
      match ph with
      | .sending _ =>
          afterUtterance (if isQuotaMsg m then { s with disabled := true } else s)
      | _ => (s, ph)
  | (s, ph), .timerDone =>
      match ph with
      | .waiting => afterUtterance s
      | _ => (s, ph)
  | (s, ph), .gapDone =>
      match ph with
      | .gap t =>
          ({ s with
              isSpeaking := true, isProcessingQueue := true,
              sent := s.sent ++ [t] }, DPhase.sending t)
      | _ => (s, ph)

def runD (s : DState × DPhase) (es : List DEvent) : DState × DPhase :=
  es.foldl dStep s

/-- The synchronous return value of `speak`: `refused` models the immediate
`return false` paths (not connected, speech disabled); `accepted` the
queue-and-return-true path; `deferred` the idle path whose promise resolves
with the `processSpeak` result later. -/
inductive SpeakReply
  | accepted
  | refused
  | deferred
deriving DecidableEq

def speakReply (s : DState) (_t : String) : SpeakReply :=
  if !s.connected then .refused
  else if s.disabled then .refused
  else if s.isSpeaking || s.isProcessingQueue then .accepted
  else .deferred

/-- `DIDClient.disconnect()`: request `close-stream` when the ids are set,
close the peer connection, clear the ids.  The `speakQueue` field is not
touched by the source. -/
def disconnectD (s : DState) : DState :=
  { s with
      closeReqs := if s.connected then s.closeReqs + 1 else s.closeReqs,
      peerOpen := false,
      connected := false }

/-- State in the middle of speaking `t0`: `processSpeak t0` has issued the
backend request and is awaiting it, queue empty. -/
def mkSpeaking (t0 : String) : DState × DPhase :=
  ({ connected := true, peerOpen := true, isSpeaking := true,
     isProcessingQueue := true, disabled := false, queue := [],
     sent := [t0], waits := [], closeReqs := 0 }, DPhase.sending t0)

/-- The texts of the `speak` calls in an event list, in call order. -/
def speaksOf : List DEvent → List String
  | [] => []
  | .speakCall t :: es => t :: speaksOf es
  | _ :: es => speaksOf es

/-- Validity of a trace for the FIFO scenario of C2: every `speak` call
arrives while an utterance is in progress (`isSpeaking || isProcessingQueue`),
the backend accepts every request (no `invokeErr`), resumption events match
the phase, and the trace runs the dispatcher to completion (idle, empty
queue). -/
def okTrace : DState × DPhase → List DEvent → Bool
  | (s, ph), [] => decide (ph = DPhase.idle) && s.queue.isEmpty
  | (s, ph), e :: es =>
      (match e, ph with
       | .speakCall _, _ =>
           s.connected && !s.disabled && (s.isSpeaking || s.isProcessingQueue)
       | .invokeOk, .sending _ => true
       | .timerDone, .waiting => true
       | .gapDone, .gap _ => true
       | _, _ => false) &&
      okTrace (dStep (s, ph) e) es

/-- Texts that the dispatcher is still bound to send: the shifted text waiting
out the inter-utterance delay, then the queue. -/
def pendTexts : DState × DPhase → List String
  | (s, .gap t) => t :: s.queue
  | (s, _) => s.queue

/-- Number of backend speak requests in flight. -/
def inFlightCount : DPhase → ℕ
  | .sending _ => 1
  | _ => 0

theorem pendTexts_queue_append (s : DState) (ph : DPhase) (t : String) :
    pendTexts ({ s with queue := s.queue ++ [t] }, ph) =
      pendTexts (s, ph) ++ [t] := by
  cases ph <;> simp [pendTexts]

theorem afterUtterance_sent (s : DState) :
    (afterUtterance s).1.sent = s.sent ∧
      pendTexts (afterUtterance s) = s.queue := by
  simp only [afterUtterance]
  rcases hq : s.queue with _ | ⟨u, rest⟩ <;> cases hd : s.disabled <;>
    simp [pendTexts, hq]

/-- Invariant of valid FIFO-scenario traces: the final backend trace is the
already-sent texts, then the texts the dispatcher is still bound to send, then
the texts of the arriving `speak` calls, in order. -/
theorem runD_sent : ∀ (es : List DEvent) (sp : DState × DPhase),
    okTrace sp es = true →
    (runD sp es).1.sent = sp.1.sent ++ pendTexts sp ++ speaksOf es := by
  intro es
  induction es with
  | nil =>
      intro ⟨s, ph⟩ h
      simp only [okTrace, Bool.and_eq_true, decide_eq_true_eq,
        List.isEmpty_iff] at h
      obtain ⟨hph, hq⟩ := h
      subst hph
      simp [runD, pendTexts, hq, speaksOf]
  | cons e es ih =>
      intro ⟨s, ph⟩ h
      simp only [okTrace, Bool.and_eq_true] at h
      obtain ⟨hok, htr⟩ := h
      show (runD (dStep (s, ph) e) es).1.sent = _
      cases e with
      | speakCall t =>
          simp only [Bool.and_eq_true, Bool.not_eq_true'] at hok
          obtain ⟨⟨hc, hd⟩, hf⟩ := hok
          have hds : dStep (s, ph) (DEvent.speakCall t) =
              ({ s with queue := s.queue ++ [t] }, ph) := by
            simp [dStep, hc, hd, hf]
          rw [hds] at htr ⊢
          rw [ih _ htr, pendTexts_queue_append]
          simp [speaksOf]
      | invokeOk =>
          cases ph with
          | sending t =>
              have hds : dStep (s, DPhase.sending t) DEvent.invokeOk =
                  ({ s with waits := s.waits ++ [durationMs (jsWordCount t)] },
                   DPhase.waiting) := rfl
              rw [hds] at htr ⊢
              rw [ih _ htr]
              simp [pendTexts, speaksOf]
          | idle => simp at hok
          | waiting => simp at hok
          | gap u => simp at hok
      | invokeErr m => simp at hok
      | timerDone =>
          cases ph with
          | waiting =>
              have hds : dStep (s, DPhase.waiting) DEvent.timerDone =
                  afterUtterance s := rfl
              rw [hds] at htr ⊢
              obtain ⟨h1, h2⟩ := afterUtterance_sent s
              rw [ih _ htr, h1, h2]
              simp [pendTexts, speaksOf]
          | idle => simp at hok
          | sending t => simp at hok
          | gap u => simp at hok
      | gapDone =>
          cases ph with
          | gap u =>
              have hds : dStep (s, DPhase.gap u) DEvent.gapDone =
                  ({ s with
                      isSpeaking := true, isProcessingQueue := true,
                      sent := s.sent ++ [u] }, DPhase.sending u) := rfl
              rw [hds] at htr ⊢
              rw [ih _ htr]
              simp [pendTexts, speaksOf]
          | idle => simp at hok
          | sending t => simp at hok
          | waiting => simp at hok

/-- C2: while the dispatcher is speaking `t0`, any sequence of
`speak(t1), speak(t2), speak(t3)` calls arriving during the in-progress
utterances is queued, and every completion of the scenario hands the backend
exactly `t0, t1, t2, t3` in FIFO call order, never interleaved or reordered,
with at most one backend speak request in flight at every point of the
trace. -/
theorem c2_speech_fifo (t0 t1 t2 t3 : String) (es : List DEvent)
    (hok : okTrace (mkSpeaking t0) es = true)
    (hsp : speaksOf es = [t1, t2, t3]) :
    (runD (mkSpeaking t0) es).1.sent = [t0, t1, t2, t3] ∧
    ∀ n : ℕ, inFlightCount (runD (mkSpeaking t0) (es.take n)).2 ≤ 1 := by
  constructor
  · have h := runD_sent es (mkSpeaking t0) hok
    rw [hsp] at h
    simpa [mkSpeaking, pendTexts] using h
  · intro n
    cases hph : (runD (mkSpeaking t0) (es.take n)).2 <;> simp [inFlightCount]

/-- Witness trace for `c2_speech_fifo`: three speaks arrive while "a" is in
flight; the dispatcher then drains the queue one utterance at a time. -/
def c2TraceW : List DEvent :=
  [.speakCall "b", .speakCall "c", .speakCall "d",
   .invokeOk, .timerDone, .gapDone,
   .invokeOk, .timerDone, .gapDone,
   .invokeOk, .timerDone, .gapDone,
   .invokeOk, .timerDone]

/-- Witness for `c2_speech_fifo` at the concrete trace `c2TraceW`. -/
theorem c2_witness :
    (runD (mkSpeaking "a") c2TraceW).1.sent = ["a", "b", "c", "d"] ∧
    ∀ n : ℕ, inFlightCount (runD (mkSpeaking "a") (c2TraceW.take n)).2 ≤ 1 :=
  c2_speech_fifo "a" "b" "c" "d" c2TraceW (by decide) (by decide)

/-! ### Quota failures (C6) -/

theorem dStep_disabled_idle (s : DState) (e : DEvent)
    (hd : s.disabled = true) :
    dStep (s, DPhase.idle) e = (s, DPhase.idle) := by
  cases e <;> simp [dStep, hd]

theorem runD_disabled_idle (es : List DEvent) (s : DState)
    (hd : s.disabled = true) :
    runD (s, DPhase.idle) es = (s, DPhase.idle) := by
  induction es with
  | nil => rfl
  | cons e es ih =>
      show runD (dStep (s, DPhase.idle) e) es = _
      rw [dStep_disabled_idle s e hd, ih]

/-- C6: when the backend `speak` request fails with a quota/credit message
(containing "402", "insufficient" or "credits"), the dispatcher sets the
permanent speech-disabled flag and goes idle without sending anything more:
every later `speak` call returns `false` and leaves the state untouched (no
backend contact), and no later event sequence ever extends the backend trace,
so the texts still waiting in the queue are never sent. -/
theorem c6_quota_disables_speech (s : DState) (u m t : String)
    (es : List DEvent) (hm : isQuotaMsg m = true) :
    (dStep (s, DPhase.sending u) (DEvent.invokeErr m)).1.disabled = true ∧
    (dStep (s, DPhase.sending u) (DEvent.invokeErr m)).2 = DPhase.idle ∧
    (dStep (s, DPhase.sending u) (DEvent.invokeErr m)).1.sent = s.sent ∧
    (dStep (s, DPhase.sending u) (DEvent.invokeErr m)).1.queue = s.queue ∧
    speakReply (dStep (s, DPhase.sending u) (DEvent.invokeErr m)).1 t =
      SpeakReply.refused ∧
    dStep (dStep (s, DPhase.sending u) (DEvent.invokeErr m))
        (DEvent.speakCall t) =
      dStep (s, DPhase.sending u) (DEvent.invokeErr m) ∧
    (runD (dStep (s, DPhase.sending u) (DEvent.invokeErr m)) es).1.sent =
      s.sent := by
  have hd : dStep (s, DPhase.sending u) (DEvent.invokeErr m) =
      ({ s with
          isSpeaking := false, isProcessingQueue := false,
          disabled := true }, DPhase.idle) := by
    simp only [dStep, hm, if_pos]
    simp only [afterUtterance]
    rcases s.queue with _ | ⟨q, qs⟩ <;> rfl
  rw [hd]
  refine ⟨rfl, rfl, rfl, rfl, ?_, ?_, ?_⟩
  · simp only [speakReply]
    rcases hc : s.connected <;> simp
  · exact dStep_disabled_idle _ _ rfl
  · rw [runD_disabled_idle _ _ rfl]

/-- Witness for `c6_quota_disables_speech` at a concrete quota failure. -/
theorem c6_witness :
    isQuotaMsg "Edge function returned 402: insufficient credits" = true ∧
    (runD
        (dStep ((mkSpeaking "hi").1, DPhase.sending "hi")
          (DEvent.invokeErr "Edge function returned 402: insufficient credits"))
        [DEvent.speakCall "later", DEvent.gapDone]).1.sent =
      (mkSpeaking "hi").1.sent :=
  ⟨by decide,
   (c6_quota_disables_speech (mkSpeaking "hi").1 "hi"
      "Edge function returned 402: insufficient credits" "later"
      [DEvent.speakCall "later", DEvent.gapDone] (by decide)).2.2.2.2.2.2⟩

/-! ### Disconnect (C7) -/

/-- C7 (counterexample): the claim says the pending speak queue is empty after
`disconnect()` returns; the source `disconnect` never touches `speakQueue`,
so a pending text survives it. -/
theorem c7_counterexample :
    (disconnectD
        { connected := true, peerOpen := true, isSpeaking := false,
          isProcessingQueue := false, disabled := false,
          queue := ["pending text"], sent := [], waits := [],
          closeReqs := 0 }).queue ≠ [] := by
  simp [disconnectD]

/-- C7 (amended): after `disconnect()` returns, the backend stream resources
are torn down — `close-stream` is requested exactly once when the stream and
session ids were present, the peer connection is closed, and the identifiers
are cleared — but the pending speak queue is left unchanged rather than
cleared. -/
theorem c7_disconnect_teardown (s : DState) :
    (disconnectD s).connected = false ∧
    (disconnectD s).peerOpen = false ∧
    (disconnectD s).closeReqs =
      (if s.connected then s.closeReqs + 1 else s.closeReqs) ∧
    (disconnectD s).queue = s.queue := by
  refine ⟨rfl, rfl, rfl, rfl⟩

/-! ### Duration estimate (C8) -/

/-- C8: for every utterance text accepted by the backend, the dispatcher
wait before signalling speaking-end is the word-count estimate at 170 words
per minute plus 800 ms of padding, clamped to [1500 ms, 20000 ms]; in
particular the wait is never below 1500 ms and never above 20000 ms for any
text. -/
theorem c8_duration_clamped (text : String) :
    (runD (mkSpeaking text) [DEvent.invokeOk]).1.waits =
      [durationMs (jsWordCount text)] ∧
    durationMs (jsWordCount text) =
      min 20000 (max 1500 ((jsWordCount text : ℚ) / 170 * 60 * 1000 + 800)) ∧
    1500 ≤ durationMs (jsWordCount text) ∧
    durationMs (jsWordCount text) ≤ 20000 := by
  refine ⟨by simp [runD, dStep, mkSpeaking], rfl, ?_, ?_⟩
  · exact le_min (by norm_num) (le_max_left _ _)
  · exact min_le_left _ _

/-! ## Realtime session: outbound event ordering
(`src/src/utils/RealtimeAudio.ts`, `RealtimeChat`)

`ws.onopen` starts the heartbeat and the recorder; each recorder frame is
sent as `input_audio_buffer.append` whenever the socket is open and
`isRecording` holds; `handleEvent` sends one `session.update` for each
`session.created` received.  Nothing gates frame transmission on the
`session.update` having been sent. -/

/-- Inbound wire-event kinds relevant to the outbound ordering. -/
inductive RTIn
  | sessionCreated
  | otherEvent
deriving DecidableEq

/-- Callback arrivals driving one `RealtimeChat` connection. -/
inductive RTEv
  | wsOpen
  | audioFrame
  | serverMsg (k : RTIn)
  | wsClose
deriving DecidableEq

/-- Outbound messages of interest: `input_audio_buffer.append` and
`session.update`. -/
inductive OutMsg
  | appendAudio
  | sessionUpdate
deriving DecidableEq

structure RTState where
  /-- The socket object exists and is open. -/
  wsLive : Bool
  /-- `isRecording` (set when `startRecording` completes). -/
  recording : Bool
  /-- Outbound messages sent so far, in order. -/
  outbound : List OutMsg
deriving DecidableEq

def rtStep (s : RTState) (e : RTEv) : RTState :=
  match e with
  | .wsOpen => { s with wsLive := true, recording := true }
  | .audioFrame =>
      if s.wsLive && s.recording then
        { s with outbound := s.outbound ++ [OutMsg.appendAudio] }
      else s
  | .serverMsg k =>
      match k with
      | .sessionCreated =>
          if s.wsLive then
            { s with outbound := s.outbound ++ [OutMsg.sessionUpdate] }
          else s
      | .otherEvent => s
  | .wsClose => { s with wsLive := false, recording := false }

def runRT (s : RTState) (es : List RTEv) : RTState := es.foldl rtStep s

def rtInit : RTState := { wsLive := false, recording := false, outbound := [] }

def countUpdates (l : List OutMsg) : ℕ :=
  l.countP (fun m => m == OutMsg.sessionUpdate)

/-- C1 (counterexample): an audio frame captured after the socket opens but
before `session.created` arrives is appended immediately, so the outbound
trace holds `input_audio_buffer.append` strictly before the `session.update`
— refuting the claim that no append is ever sent before the session-config
update. -/
theorem c1_counterexample :
    (runRT rtInit
        [RTEv.wsOpen, RTEv.audioFrame,
         RTEv.serverMsg RTIn.sessionCreated]).outbound =
      [OutMsg.appendAudio, OutMsg.sessionUpdate] := rfl

/-- C1 (amended): `RealtimeChat` sends exactly one `session.update` per
`session.created` received on a live socket — so exactly one per connection
when the server emits session-ready once — and no other event sends one; but
append-input-audio events are not ordered after it: a frame captured after
socket open and before session-ready is sent first (see
`c1_counterexample`). -/
theorem c1_update_per_session_created (s : RTState) (e : RTEv) :
    countUpdates (rtStep s e).outbound =
      countUpdates s.outbound +
        (if e = RTEv.serverMsg RTIn.sessionCreated ∧ s.wsLive = true
         then 1 else 0) := by
  cases e with
  | wsOpen => simp [rtStep, countUpdates]
  | audioFrame =>
      rw [if_neg (show ¬(RTEv.audioFrame = RTEv.serverMsg RTIn.sessionCreated ∧
        s.wsLive = true) by simp)]
      simp only [rtStep, Nat.add_zero]
      split_ifs with h <;> simp [countUpdates, List.countP_append]
  | serverMsg k =>
      cases k with
      | sessionCreated =>
          by_cases h : s.wsLive = true <;>
            simp [rtStep, countUpdates, h, List.countP_append]
      | otherEvent => simp [rtStep, countUpdates]
  | wsClose => simp [rtStep, countUpdates]

/-! ## Realtime session: reconnect with backoff
(`src/src/utils/RealtimeAudio.ts`, `attemptReconnect` / `init`)

In the all-attempts-fail modes, each failure surfaces as one of: the 15 s
connection timeout firing (calls `attemptReconnect` unconditionally), `init`
throwing (guarded by `reconnectAttempts < 5`), or the socket closing (same
guard, but no error callback on exhaustion).  The jitter `Math.random()`
value of each backoff is carried on the event as `j ∈ [0, 1)`. -/

inductive RCStatus
  | disconnected
  | connecting
  | connected
  | reconnecting
deriving DecidableEq

/-- Terminal errors surfaced through `onError`. -/
inductive RCError
  | reconnectExhausted
  | initFailure
deriving DecidableEq

structure RCState where
  /-- `reconnectAttempts`. -/
  attempts : ℕ
  /-- `isIntentionalDisconnect`. -/
  intentional : Bool
  status : RCStatus
  /-- Backoff waits performed, in order. -/
  waits : List ℚ
  /-- Errors surfaced to the caller, in order. -/
  errors : List RCError
deriving DecidableEq

/-- Failure arrivals; `j` is the `Math.random()` draw of the backoff jitter
used if a backoff wait follows. -/
inductive RCEvent
  | timeoutFired (j : ℚ)
  | initThrew (j : ℚ)
  | socketClosed (j : ℚ)
deriving DecidableEq

/-- `Math.min(1000 * Math.pow(2, attempts - 1), 10000)`. -/
def backoffBase (n : ℕ) : ℚ := min (1000 * 2 ^ (n - 1)) 10000

/-- `delay + jitter` with `jitter = delay * 0.1 * j`. -/
def jitteredWait (n : ℕ) (j : ℚ) : ℚ :=
  backoffBase n + backoffBase n * (1 / 10) * j

/-- `attemptReconnect`: increment the counter; within budget, wait the
jittered backoff and (unless intentionally disconnected) re-enter `init`
(status `connecting`); on exhaustion surface the terminal reconnect error and
go `disconnected`. -/
def reconnectStep (s : RCState) (j : ℚ) : RCState :=
  let n := s.attempts + 1
  if n ≤ 5 then
    { s with
        attempts := n,
        status := if s.intentional then RCStatus.reconnecting
                  else RCStatus.connecting,
        waits := s.waits ++ [jitteredWait n j] }
  else
    { s with
        attempts := n,
        status := RCStatus.disconnected,
        errors := s.errors ++ [RCError.reconnectExhausted] }

def rcStep (s : RCState) (e : RCEvent) : RCState :=
  match e with
  | .timeoutFired j => reconnectStep s j
  | .initThrew j =>
      if !s.intentional && decide (s.attempts < 5) then reconnectStep s j
      else
        { s with
            status := RCStatus.disconnected,
            errors := s.errors ++ [RCError.initFailure] }
  | .socketClosed j =>
      if !s.intentional && decide (s.attempts < 5) then reconnectStep s j
      else { s with status := RCStatus.disconnected }

def runRC (s : RCState) (es : List RCEvent) : RCState := es.foldl rcStep s

/-- State right after the first `init()` call: `connecting`, zero reconnect
attempts, not an intentional disconnect. -/
def rcInit : RCState :=
  { attempts := 0, intentional := false, status := RCStatus.connecting,
    waits := [], errors := [] }

/-- Six consecutive connection-timeout failures with the given jitters. -/
def rcTrace6 (j1 j2 j3 j4 j5 j6 : ℚ) : List RCEvent :=
  [RCEvent.timeoutFired j1, RCEvent.timeoutFired j2, RCEvent.timeoutFired j3,
   RCEvent.timeoutFired j4, RCEvent.timeoutFired j5, RCEvent.timeoutFired j6]

/-- C3 (counterexample): after exactly 5 consecutive failed connection
attempts (five connection timeouts, no success) the session is still
retrying — status `connecting`, not `disconnected` — and no error has been
surfaced, refuting the claim that five failures reach `disconnected` with one
`ReconnectExhausted`; the terminal transition needs a sixth failure. -/
theorem c3_counterexample :
    (runRC rcInit
        [RCEvent.timeoutFired 0, RCEvent.timeoutFired 0, RCEvent.timeoutFired 0,
         RCEvent.timeoutFired 0, RCEvent.timeoutFired 0]).status =
      RCStatus.connecting ∧
    (runRC rcInit
        [RCEvent.timeoutFired 0, RCEvent.timeoutFired 0, RCEvent.timeoutFired 0,
         RCEvent.timeoutFired 0, RCEvent.timeoutFired 0]).errors = [] :=
  ⟨rfl, rfl⟩

theorem jitteredWait_bounds (n : ℕ) (j : ℚ) (h0 : 0 ≤ j) (h1 : j < 1) :
    backoffBase n ≤ jitteredWait n j ∧
      jitteredWait n j ≤ backoffBase n * (11 / 10) := by
  have hb : 0 < backoffBase n := by
    have h2 : (0 : ℚ) < 2 ^ (n - 1) := by positivity
    simp only [backoffBase, lt_min_iff]
    constructor <;> nlinarith
  constructor
  · simp only [jitteredWait]
    nlinarith
  · simp only [jitteredWait]
    nlinarith

/-- C3 (amended): in the connection-timeout failure mode with no successful
connection, the terminal transition happens after SIX consecutive failed
connection attempts (the initial attempt plus the five reconnect retries):
the session then reaches `disconnected` and surfaces exactly one terminal
reconnect-exhausted error; the backoff wait before reconnect attempt n
(n = 1..5) is min(1000*2^(n-1), 10000) ms plus a jitter in [0, 10%) of it,
within the claimed ±10% tolerance.  (When every failure surfaces as a socket
close instead, exhaustion reaches `disconnected` without any error; when
`init` throws, the terminal error is the underlying init failure.) -/
theorem c3_reconnect_exhaustion (j1 j2 j3 j4 j5 j6 : ℚ)
    (hj : ∀ j ∈ [j1, j2, j3, j4, j5, j6], 0 ≤ j ∧ j < 1) :
    (runRC rcInit (rcTrace6 j1 j2 j3 j4 j5 j6)).status =
        RCStatus.disconnected ∧
    (runRC rcInit (rcTrace6 j1 j2 j3 j4 j5 j6)).errors =
        [RCError.reconnectExhausted] ∧
    (runRC rcInit (rcTrace6 j1 j2 j3 j4 j5 j6)).attempts = 6 ∧
    (runRC rcInit (rcTrace6 j1 j2 j3 j4 j5 j6)).waits =
        [jitteredWait 1 j1, jitteredWait 2 j2, jitteredWait 3 j3,
         jitteredWait 4 j4, jitteredWait 5 j5] ∧
    ∀ n : ℕ, n < 5 →
      backoffBase (n + 1) ≤
          (runRC rcInit (rcTrace6 j1 j2 j3 j4 j5 j6)).waits.getD n 0 ∧
        (runRC rcInit (rcTrace6 j1 j2 j3 j4 j5 j6)).waits.getD n 0 ≤
          backoffBase (n + 1) * (11 / 10) := by
  refine ⟨rfl, rfl, rfl, rfl, ?_⟩
  intro n hn
  have hw : (runRC rcInit (rcTrace6 j1 j2 j3 j4 j5 j6)).waits =
      [jitteredWait 1 j1, jitteredWait 2 j2, jitteredWait 3 j3,
       jitteredWait 4 j4, jitteredWait 5 j5] := rfl
  rw [hw]
  interval_cases n
  · exact jitteredWait_bounds 1 j1 (hj j1 (by simp)).1 (hj j1 (by simp)).2
  · exact jitteredWait_bounds 2 j2 (hj j2 (by simp)).1 (hj j2 (by simp)).2
  · exact jitteredWait_bounds 3 j3 (hj j3 (by simp)).1 (hj j3 (by simp)).2
  · exact jitteredWait_bounds 4 j4 (hj j4 (by simp)).1 (hj j4 (by simp)).2
  · exact jitteredWait_bounds 5 j5 (hj j5 (by simp)).1 (hj j5 (by simp)).2

/-- Witness for `c3_reconnect_exhaustion` at zero jitter. -/
theorem c3_witness :
    (runRC rcInit (rcTrace6 0 0 0 0 0 0)).status = RCStatus.disconnected ∧
    backoffBase 1 ≤ (runRC rcInit (rcTrace6 0 0 0 0 0 0)).waits.getD 0 0 := by
  have h := c3_reconnect_exhaustion 0 0 0 0 0 0
    (by intro j hj; simp only [List.mem_cons, List.not_mem_nil, or_false] at hj
        rcases hj with h | h | h | h | h | h <;> subst h <;> norm_num)
  exact ⟨h.1, (h.2.2.2.2 0 (by norm_num)).1⟩

/-! ## Conversation orchestrator: voice input
(`src/src/components/AvatarVideoCall.tsx`, `handleVoiceInput`, lines 132-144)

`handleVoiceInput(transcript)` returns early when the transcript is empty,
the call is not connected, or a response is being processed; otherwise it
appends the transcript as a user message (and forwards it to the AI).  The
function takes no timing information and performs no word-count or
containment checks. -/

inductive Sender
  | user
  | agent
deriving DecidableEq

structure ChatMessage where
  sender : Sender
  text : String
deriving DecidableEq

inductive VCStatus
  | disconnected
  | connecting
  | connected
deriving DecidableEq

structure VCState where
  status : VCStatus
  isProcessing : Bool
  messages : List ChatMessage
deriving DecidableEq

/-- `handleVoiceInput` translated from the source guard
checking a non-empty transcript, connected status, and no response in
flight. -/
def handleVoiceInput (s : VCState) (transcript : String) : VCState :=
  if transcript = "" ∨ s.status ≠ VCStatus.connected ∨ s.isProcessing = true
  then s
  else { s with messages := s.messages ++ [⟨Sender.user, transcript⟩] }

/-- C9 (counterexample): the claim says a recognized utterance of at most two
words arriving 3 seconds after the avatar stopped speaking is discarded.
`handleVoiceInput` takes no timing input and performs no word-count check:
in a connected, non-processing state the two-word utterance "okay thanks" is
appended as a user turn — the same outcome at 3 s as at 10 s — so it is not
discarded. -/
theorem c9_counterexample :
    (handleVoiceInput
        { status := VCStatus.connected, isProcessing := false, messages := [] }
        "okay thanks").messages =
      [⟨Sender.user, "okay thanks"⟩] := by
  simp [handleVoiceInput]

/-- C9 (amended): the orchestrator applies no echo suppression: every
non-empty transcript recognized while the call is connected and no response
is being processed is appended as a user turn, regardless of its word count,
of the elapsed time since the avatar stopped speaking, and of containment in
the last avatar utterance (so the ≤2-word utterance at 3 s is accepted just
like the one at 10 s); in any other state the input is dropped with the state
unchanged. -/
theorem c9_no_echo_suppression (s : VCState) (transcript : String)
    (ht : transcript ≠ "") (hs : s.status = VCStatus.connected)
    (hp : s.isProcessing = false) :
    (handleVoiceInput s transcript).messages =
      s.messages ++ [⟨Sender.user, transcript⟩] := by
  rw [handleVoiceInput, if_neg]
  push_neg
  exact ⟨ht, by rw [hs], by simp [hp]⟩

/-- Witness for `c9_no_echo_suppression` at a concrete connected state. -/
theorem c9_witness :
    (handleVoiceInput
        { status := VCStatus.connected, isProcessing := false,
          messages := [⟨Sender.agent, "greeting"⟩] }
        "my laptop is broken").messages =
      [⟨Sender.agent, "greeting"⟩] ++ [⟨Sender.user, "my laptop is broken"⟩] :=
  c9_no_echo_suppression
    { status := VCStatus.connected, isProcessing := false,
      messages := [⟨Sender.agent, "greeting"⟩] }
    "my laptop is broken" (by decide) rfl rfl

end Avatar
